import Mathlib

/-
Shallow embedding of the pawls repository (src/api/main.py,
src/cli/pawls/commands/assign.py, src/cli/pawls/commands/dataset.py).

The filesystem is modelled explicitly: an annotator's status file is an
`Option StatusFile` (`none` = the file does not exist), a per-(document,
annotator) annotation payload file is an `Option PdfAnnot`, and the
content-addressed document store is an association list from document id
to stored bytes.  Raised Python exceptions are modelled as explicit error
results carrying the filesystem state at the moment of the raise.
-/

namespace Pawls

/-- A per-document status record, with the fields written by
`assign.py` (sha, name, annotations, relations, finished, junk, comments,
completedAt) and read back by the API server. -/
structure PaperStatus where
  sha : String
  name : String
  annotations : Nat
  relations : Nat
  finished : Bool
  junk : Bool
  comments : String
  completedAt : Option String
deriving DecidableEq, Repr

/-- The parsed contents of one annotator's status file: a JSON object
mapping document sha to its record, modelled as an association list in
insertion order. -/
abbrev StatusFile := List (String × PaperStatus)

/-- A partial field update, modelling the `data` dict passed to
`update_status_json` (the callers pass subsets of these five keys). -/
structure StatusUpdate where
  annotations : Option Nat := none
  relations : Option Nat := none
  finished : Option Bool := none
  junk : Option Bool := none
  comments : Option String := none
deriving DecidableEq, Repr

/-- The Python dict merge of a record with an update dict:
keys present in the update override the record, all other keys are kept. -/
def applyUpdate (r : PaperStatus) (d : StatusUpdate) : PaperStatus :=
  { r with
    annotations := d.annotations.getD r.annotations
    relations := d.relations.getD r.relations
    finished := d.finished.getD r.finished
    junk := d.junk.getD r.junk
    comments := d.comments.getD r.comments }

/-- Key lookup in a status file (Python dict access). -/
def lookupStatus : StatusFile → String → Option PaperStatus
  | [], _ => none
  | (k, v) :: rest, sha => if k = sha then some v else lookupStatus rest sha

/-- Key assignment in a status file for a key that is already present
(Python dict item assignment keeps the key in place). -/
def setStatus : StatusFile → String → PaperStatus → StatusFile
  | [], _, _ => []
  | (k, v) :: rest, sha, nv =>
    if k = sha then (k, nv) :: setStatus rest sha nv
    else (k, v) :: setStatus rest sha nv

/-- main.py `update_status_json`: loads the status file, evaluates
`status_json[sha] = dict-merge(status_json[sha], data)` and writes the file
back.  Reading `status_json[sha]` on an absent key raises KeyError before
anything is written, modelled as `none` (the file on disk is unchanged). -/
def update_status_json (file : StatusFile) (sha : String) (data : StatusUpdate) :
    Option StatusFile :=
  match lookupStatus file sha with
  | none => none
  | some r => some (setStatus file sha (applyUpdate r data))

/-- main.py `set_pdf_comments`: if the annotator's status file does not
exist, return success with no effect; otherwise run `update_status_json`.
Result: (completed without raising, resulting status file state). -/
def set_pdf_comments (statusFile : Option StatusFile) (sha : String)
    (comments : String) : Bool × Option StatusFile :=
  match statusFile with
  | none => (true, none)
  | some file =>
    match update_status_json file sha { comments := some comments } with
    | none => (false, some file)
    | some f2 => (true, some f2)

/-- main.py `set_pdf_junk`, same shape as `set_pdf_comments`. -/
def set_pdf_junk (statusFile : Option StatusFile) (sha : String)
    (junk : Bool) : Bool × Option StatusFile :=
  match statusFile with
  | none => (true, none)
  | some file =>
    match update_status_json file sha { junk := some junk } with
    | none => (false, some file)
    | some f2 => (true, some f2)

/-- main.py `set_pdf_finished`, same shape as `set_pdf_comments`. -/
def set_pdf_finished (statusFile : Option StatusFile) (sha : String)
    (finished : Bool) : Bool × Option StatusFile :=
  match statusFile with
  | none => (true, none)
  | some file =>
    match update_status_json file sha { finished := some finished } with
    | none => (false, some file)
    | some f2 => (true, some f2)

/-- Modelled from the spec: `app.annotations.Annotation` is not under src/;
per spec section 3 it is an opaque structured record whose internals do not
matter to the core, so it is modelled as an opaque blob. -/
structure Annot where
  blob : String
deriving DecidableEq, Repr

/-- Modelled from the spec: `app.annotations.RelationGroup` is not under
src/; opaque record, modelled as a blob. -/
structure RelationGroup where
  blob : String
deriving DecidableEq, Repr

/-- The contents of a `{user}_annotations.json` payload file. -/
structure PdfAnnot where
  annotations : List Annot
  relations : List RelationGroup
deriving DecidableEq, Repr

/-- main.py `save_annotations` acting on the two files it touches.
If the annotator's status file does not exist, return success without
writing anything.  Otherwise write the payload file wholesale, then run
`update_status_json` with the two counts; a KeyError there (sha absent
from the status file) leaves the already-written payload in place and
the status file unchanged.  Result: (completed without raising,
status file state, payload file state). -/
def save_annotations (statusFile : Option StatusFile)
    (payloadFile : Option PdfAnnot) (sha : String)
    (annotations : List Annot) (relations : List RelationGroup) :
    Bool × Option StatusFile × Option PdfAnnot :=
  match statusFile with
  | none => (true, none, payloadFile)
  | some file =>
    let newPayload : PdfAnnot := { annotations := annotations, relations := relations }
    match update_status_json file sha
        { annotations := some annotations.length, relations := some relations.length } with
    | none => (false, some file, some newPayload)
    | some f2 => (true, some f2, some newPayload)

/-
Interleaving model for concurrent `update_status_json` calls.

The server handles requests concurrently and `update_status_json` takes no
lock: each call reads the whole status file, computes the merged object in
memory, and writes the whole file back.  Two concurrent calls on the same
annotator's file are modelled as four events — each call's read and its
write — executed in an arbitrary order; a call's write publishes the file
computed from the snapshot taken at its read.
-/

/-- An event of one of two concurrent `update_status_json` calls. -/
inductive MergeEv
  | read1 | read2 | write1 | write2
deriving DecidableEq, Repr

/-- The shared file plus each call's private snapshot; `err` records
whether some call raised KeyError. -/
structure MergeState where
  snap1 : Option StatusFile
  snap2 : Option StatusFile
  file : StatusFile
  err : Bool
deriving DecidableEq, Repr

/-- One event of the interleaved execution: a read snapshots the current
file; a write stores the file computed by `update_status_json` from that
call's snapshot, overwriting whatever is there (a write before the call's
read cannot happen and is a no-op). -/
def mergeStep (sha : String) (d1 d2 : StatusUpdate) (s : MergeState) :
    MergeEv → MergeState
  | .read1 => { s with snap1 := some s.file }
  | .read2 => { s with snap2 := some s.file }
  | .write1 =>
    match s.snap1 with
    | none => s
    | some snap =>
      match update_status_json snap sha d1 with
      | none => { s with err := true }
      | some f => { s with file := f }
  | .write2 =>
    match s.snap2 with
    | none => s
    | some snap =>
      match update_status_json snap sha d2 with
      | none => { s with err := true }
      | some f => { s with file := f }

/-- Run an interleaving of the events of two concurrent
`update_status_json` calls on one annotator's status file. -/
def runMerge (file : StatusFile) (sha : String) (d1 d2 : StatusUpdate)
    (sched : List MergeEv) : MergeState :=
  sched.foldl (mergeStep sha d1 d2) { snap1 := none, snap2 := none, file := file, err := false }

/-- The field update written by `set_pdf_finished` with body true. -/
def updFinished : StatusUpdate := { finished := some true }

/-- The field update written by `set_pdf_junk` with body true. -/
def updJunk : StatusUpdate := { junk := some true }

/-
dataset.py: the content-addressed document store.
-/

/-- The document store directory: one entry per stored document, keyed by
the directory name (the DocumentId), holding the stored bytes. -/
abbrev Store := List (String × List Nat)

/-- Directory-existence check for a DocumentId (`output_dir.exists()`). -/
def lookupStore : Store → String → Option (List Nat)
  | [], _ => none
  | (k, v) :: rest, key => if k = key then some v else lookupStore rest key

/-- How many stored entries a DocumentId has (a real directory has at most
one; this counts entries of the association list). -/
def countKey : Store → String → Nat
  | [], _ => 0
  | (k, _) :: rest, key => (if k = key then 1 else 0) + countKey rest key

/-- dataset.py `add` for one pdf in content-hash mode (`no_hash` not set):
the DocumentId is the content digest; if a directory for it already exists
the pdf is skipped, otherwise the directory is created and the bytes are
copied in.  `hash` abstracts `hash_pdf` (SHA-256 of the raw bytes), a pure
function of the content.  Returns the DocumentId and the new store. -/
def addPdf (hash : List Nat → String) (store : Store) (content : List Nat) :
    String × Store :=
  let pdf_name := hash content
  match lookupStore store pdf_name with
  | some _ => (pdf_name, store)
  | none => (pdf_name, (pdf_name, content) :: store)

/-
assign.py: the single-annotator `assign` command.
-/

/-- A character of the local part of the email regex. -/
def localChar (c : Char) : Bool :=
  c.isAlpha || c.isDigit || c == '_' || c == '.' || c == '+' || c == '-'

/-- A character of the domain part before the first dot. -/
def domChar (c : Char) : Bool := c.isAlpha || c.isDigit || c == '-'

/-- A character of the domain part after the first dot. -/
def tailChar (c : Char) : Bool := c.isAlpha || c.isDigit || c == '-' || c == '.'

/-- The anchored email regex of assign.py: a nonempty run of local-part
characters, an at sign, a nonempty run of domain characters, a dot, and a
nonempty run of tail characters reaching the end of the string.  (Each run
is maximal: no class contains the delimiter that follows it, so greedy
matching with backtracking accepts exactly these strings.) -/
def validEmail (s : String) : Bool :=
  let cs := s.toList
  let lp := cs.takeWhile localChar
  match cs.dropWhile localChar with
  | '@' :: r2 =>
    let dom := r2.takeWhile domChar
    match r2.dropWhile domChar with
    | '.' :: r4 => !lp.isEmpty && !dom.isEmpty && !r4.isEmpty && r4.all tailChar
    | _ => false
  | _ => false

/-- Lexicographic order on code points, the order Python's sorted uses on
strings. -/
def charListLe : List Char → List Char → Bool
  | [], _ => true
  | _ :: _, [] => false
  | a :: as, b :: bs => if a < b then true else if b < a then false else charListLe as bs

/-- Insert a string into a sorted list, keeping it sorted. -/
def insertSorted (a : String) : List String → List String
  | [] => [a]
  | b :: rest => if charListLe a.toList b.toList then a :: b :: rest else b :: insertSorted a rest

/-- Python's sorted over a collection of shas (insertion sort; the shas
are distinct strings, so stability does not matter). -/
def sortStrings (l : List String) : List String := l.foldr insertSorted []

/-- Name-mapping lookup (`name_mapping.get(sha, None)`). -/
def lookupName : List (String × String) → String → Option String
  | [], _ => none
  | (k, v) :: rest, key => if k = key then some v else lookupName rest key

/-- The record created by assign.py for a newly assigned sha. -/
def freshRecord (sha name : String) : PaperStatus :=
  { sha := sha, name := name, annotations := 0, relations := 0,
    finished := false, junk := false, comments := "", completedAt := none }

/-- assign.py's insertion loop: for each sha in order, skip it if already a
key of the status object, else append a fresh default record, with the
display name from the mapping when present, else the sha itself. -/
def assignLoop (nameMapping : List (String × String)) (pdf_status : StatusFile) :
    List String → StatusFile
  | [] => pdf_status
  | sha :: rest =>
    match lookupStatus pdf_status sha with
    | some _ => assignLoop nameMapping pdf_status rest
    | none =>
      let name := (lookupName nameMapping sha).getD sha
      assignLoop nameMapping (pdf_status ++ [(sha, freshRecord sha name)]) rest

/-- The exceptions assign.py can raise: UsageError carrying the shas not
present in the project, or BadArgumentUsage for an invalid annotator. -/
inductive AssignError
  | usageError (unknown : List String)
  | badArgument
deriving DecidableEq, Repr

/-- assign.py `assign` after command-line parsing (the plain path:
no `--all` flag and no sha file, so the sha collection is the arguments as
given).  The shas are checked against the project first — any unknown sha
raises UsageError listing the whole difference — then the annotator is
checked against the email regex; only then is the status file read, the
loop run over the sorted shas, and the file written back. -/
def assign (project_shas : List String) (annotator : String)
    (nameMapping : List (String × String)) (statusFileFs : Option StatusFile)
    (shas : List String) : Except AssignError StatusFile :=
  let diff := shas.filter (fun s => !(project_shas.contains s))
  if diff.isEmpty then
    if validEmail annotator then
      .ok (assignLoop nameMapping (statusFileFs.getD []) (sortStrings shas))
    else .error .badArgument
  else .error (.usageError diff)

/-- The status file on disk after running the assign command: written only
when the command succeeds; an exception is raised before any write, leaving
the file as it was. -/
def assignFs (project_shas : List String) (annotator : String)
    (nameMapping : List (String × String)) (statusFileFs : Option StatusFile)
    (shas : List String) : Option StatusFile :=
  match assign project_shas annotator nameMapping statusFileFs shas with
  | .ok st => some st
  | .error _ => statusFileFs

/-
main.py: the allocation endpoint.
-/

/-- Modelled from the spec: `app.metadata.PaperStatus.empty` is not under
src/; per spec sections 3 and 4.7 it builds a record with all default
fields — counts 0, flags false, comments empty, completedAt absent. -/
def PaperStatus.empty (sha name : String) : PaperStatus :=
  { sha := sha, name := name, annotations := 0, relations := 0,
    finished := false, junk := false, comments := "", completedAt := none }

/-- main.py `all_pdf_shas`: glob pdf files one level below the output
directory and take each file's directory name.  The store layout keeps one
pdf per DocumentId directory, so the glob result is modelled as one
(directory name, file name) pair per stored document. -/
def all_pdf_shas (pdfPaths : List (String × String)) : List String :=
  pdfPaths.map (fun p => p.1)

/-- The response of the allocation endpoint. -/
structure Allocation where
  papers : List PaperStatus
  hasAllocatedPapers : Bool
deriving DecidableEq, Repr

/-- main.py `get_allocation_info`: with no status file, one empty record
per pdf sha and hasAllocatedPapers false; with a status file, its records
(the values, in file order) and hasAllocatedPapers true. -/
def get_allocation_info (statusFile : Option StatusFile)
    (pdfPaths : List (String × String)) : Allocation :=
  match statusFile with
  | none =>
    { papers := (all_pdf_shas pdfPaths).map (fun sha => PaperStatus.empty sha sha)
      hasAllocatedPapers := false }
  | some file =>
    { papers := file.map (fun kv => kv.2)
      hasAllocatedPapers := true }

/-
main.py: the title endpoint.
-/

/-- The parsed pdf_metadata.json file: an object mapping keys to objects,
each mapping field names to strings. -/
abbrev PdfMetadata := List (String × List (String × String))

/-- Lookup in the metadata object (Python dict `.get` with default None). -/
def lookupMeta : PdfMetadata → String → Option (List (String × String))
  | [], _ => none
  | (k, v) :: rest, key => if k = key then some v else lookupMeta rest key

/-- Field lookup in one metadata entry. -/
def lookupField : List (String × String) → String → Option String
  | [], _ => none
  | (k, v) :: rest, key => if k = key then some v else lookupField rest key

/-- main.py `get_pdf_title`: reads the metadata file and evaluates
info.get with the literal key "sha" (not the requested document id), then
.get of "title" on the result. -/
def get_pdf_title (info : PdfMetadata) (sha : String) : Option String :=
  match lookupMeta info "sha" with
  | none => none
  | some data => lookupField data "title"

/-
main.py: the allow-list check.
-/

/-- main.py `user_is_allowed`: if the users file does not exist, the
FileNotFoundError is caught and the function returns false.  Otherwise it
scans the lines; a line whose stripped form equals the email, or starts
with an at sign and is a suffix of the email, grants access. -/
def user_is_allowed (usersFileLines : Option (List String))
    (user_email : String) : Bool :=
  match usersFileLines with
  | none => false
  | some lines =>
    lines.any (fun line =>
      let entry := line.trim
      user_email == entry || (entry.startsWith "@" && user_email.endsWith entry))

/-- A one-record status file used as a concrete evaluation point. -/
def exRecord : PaperStatus :=
  { sha := "a", name := "a", annotations := 0, relations := 0,
    finished := false, junk := false, comments := "", completedAt := none }

/-- A status file containing a record for document "a" only. -/
def exFile : StatusFile := [("a", exRecord)]

/-
Helper lemmas about the status file operations.
-/

/-- After overwriting a present key, looking it up yields the new value. -/
theorem lookupStatus_setStatus_self (file : StatusFile) (sha : String)
    (r v : PaperStatus) (h : lookupStatus file sha = some r) :
    lookupStatus (setStatus file sha v) sha = some v := by
  induction file with
  | nil => simp [lookupStatus] at h
  | cons kv rest ih =>
    obtain ⟨k, w⟩ := kv
    by_cases hk : k = sha
    · simp [lookupStatus, setStatus, hk]
    · simp [lookupStatus, setStatus, hk] at h ⊢
      exact ih h

/-- Lookup through an append, when the left part has the key. -/
theorem lookupStatus_append_some (st l : StatusFile) (sha : String)
    (v : PaperStatus) (h : lookupStatus st sha = some v) :
    lookupStatus (st ++ l) sha = some v := by
  induction st with
  | nil => simp [lookupStatus] at h
  | cons kv rest ih =>
    obtain ⟨k, w⟩ := kv
    by_cases hk : k = sha
    · simp [lookupStatus, hk] at h ⊢
      exact h
    · simp [lookupStatus, hk] at h ⊢
      exact ih h

/-- Lookup through an append, when the left part lacks the key. -/
theorem lookupStatus_append_none (st l : StatusFile) (sha : String)
    (h : lookupStatus st sha = none) :
    lookupStatus (st ++ l) sha = lookupStatus l sha := by
  induction st with
  | nil => simp [lookupStatus]
  | cons kv rest ih =>
    obtain ⟨k, w⟩ := kv
    by_cases hk : k = sha
    · simp [lookupStatus, hk] at h
    · simp [lookupStatus, hk] at h ⊢
      exact ih h

/-- The assign loop never touches a record that is already present. -/
theorem assignLoop_preserves (nm : List (String × String)) (shas : List String)
    (st : StatusFile) (sha : String) (v : PaperStatus)
    (h : lookupStatus st sha = some v) :
    lookupStatus (assignLoop nm st shas) sha = some v := by
  induction shas generalizing st with
  | nil => simpa [assignLoop] using h
  | cons sha0 rest ih =>
    cases h0 : lookupStatus st sha0 with
    | some w => simp only [assignLoop, h0]; exact ih st h
    | none =>
      simp only [assignLoop, h0]
      exact ih _ (lookupStatus_append_some st _ sha v h)

/-- Every sha fed to the assign loop ends up as a key of the result. -/
theorem assignLoop_mem_isSome (nm : List (String × String)) (shas : List String)
    (st : StatusFile) (sha : String) (h : sha ∈ shas) :
    (lookupStatus (assignLoop nm st shas) sha).isSome := by
  induction shas generalizing st with
  | nil => simp at h
  | cons sha0 rest ih =>
    rcases List.mem_cons.mp h with h | h
    · subst h
      cases h0 : lookupStatus st sha with
      | some w =>
        simp only [assignLoop, h0]
        rw [assignLoop_preserves nm rest st sha w h0]
        rfl
      | none =>
        simp only [assignLoop, h0]
        have hl : lookupStatus
            (st ++ [(sha, freshRecord sha ((lookupName nm sha).getD sha))]) sha =
            some (freshRecord sha ((lookupName nm sha).getD sha)) := by
          rw [lookupStatus_append_none st _ sha h0]
          simp [lookupStatus]
        rw [assignLoop_preserves nm rest _ sha _ hl]
        rfl
    · cases h0 : lookupStatus st sha0 with
      | some w => simp only [assignLoop, h0]; exact ih st h
      | none => simp only [assignLoop, h0]; exact ih _ h

/-- The assign loop is the identity when every sha is already present. -/
theorem assignLoop_fix (nm : List (String × String)) (shas : List String)
    (st : StatusFile) (h : ∀ sha ∈ shas, (lookupStatus st sha).isSome) :
    assignLoop nm st shas = st := by
  induction shas with
  | nil => rfl
  | cons sha0 rest ih =>
    have h0 : (lookupStatus st sha0).isSome := h sha0 (List.mem_cons_self _ _)
    cases hl : lookupStatus st sha0 with
    | none => rw [hl] at h0; simp at h0
    | some w =>
      simp only [assignLoop, hl]
      exact ih (fun sha hs => h sha (List.mem_cons_of_mem _ hs))

/-
Helper lemmas about the document store.
-/

/-- A DocumentId with no directory has zero stored entries. -/
theorem lookupStore_none_countKey (s : Store) (k : String)
    (h : lookupStore s k = none) : countKey s k = 0 := by
  induction s with
  | nil => rfl
  | cons kv rest ih =>
    obtain ⟨k0, v0⟩ := kv
    by_cases hk : k0 = k
    · simp [lookupStore, hk] at h
    · simp [lookupStore, hk] at h
      simp [countKey, hk, ih h]

/-- A DocumentId with a directory has at least one stored entry. -/
theorem lookupStore_some_countKey (s : Store) (k : String) (v : List Nat)
    (h : lookupStore s k = some v) : 1 ≤ countKey s k := by
  induction s with
  | nil => simp [lookupStore] at h
  | cons kv rest ih =>
    obtain ⟨k0, v0⟩ := kv
    by_cases hk : k0 = k
    · simp [countKey, hk]
    · simp [lookupStore, hk] at h
      have hrest := ih h
      simp [countKey, hk]
      omega

/-
Claim theorems.
-/

/-- C1, counterexample: with an existing status file holding only a record
for document "a", a comment update for document "b" does not complete
without error — reading the absent key raises KeyError (the file itself is
left unchanged because the error occurs before the write-back). -/
theorem comment_update_for_absent_doc_raises :
    (set_pdf_comments (some exFile) "b" "hi").1 = false ∧
    (set_pdf_comments (some exFile) "b" "hi").2 = some exFile := by
  constructor <;> rfl

/-- C1 (amended): a field-merge update is silently dropped (success, no
record created, nothing modified) exactly when the annotator's status file
does not exist; when the file exists but the docId is absent from it, the
update raises KeyError instead of completing — the file is unmodified and
no record is created, but the operation does not complete without error. -/
theorem merge_update_dropped_only_without_status_file :
    (∀ sha c, set_pdf_comments none sha c = (true, none)) ∧
    (∀ sha b, set_pdf_junk none sha b = (true, none)) ∧
    (∀ sha b, set_pdf_finished none sha b = (true, none)) ∧
    (∀ (file : StatusFile) (sha : String) (d : StatusUpdate),
      lookupStatus file sha = none → update_status_json file sha d = none) ∧
    (∀ (file : StatusFile) (sha c : String), lookupStatus file sha = none →
      set_pdf_comments (some file) sha c = (false, some file)) ∧
    (∀ (file : StatusFile) (sha : String) (b : Bool), lookupStatus file sha = none →
      set_pdf_junk (some file) sha b = (false, some file)) ∧
    (∀ (file : StatusFile) (sha : String) (b : Bool), lookupStatus file sha = none →
      set_pdf_finished (some file) sha b = (false, some file)) := by
  refine ⟨fun _ _ => rfl, fun _ _ => rfl, fun _ _ => rfl, ?_, ?_, ?_, ?_⟩
  · intro file sha d h
    simp [update_status_json, h]
  · intro file sha c h
    simp [set_pdf_comments, update_status_json, h]
  · intro file sha b h
    simp [set_pdf_junk, update_status_json, h]
  · intro file sha b h
    simp [set_pdf_finished, update_status_json, h]

/-- C1, witness: the amended theorem evaluated at concrete inputs. -/
theorem merge_update_dropped_only_without_status_file_spot :
    set_pdf_comments none "a" "hi" = (true, none) ∧
    lookupStatus exFile "b" = none ∧
    update_status_json exFile "b" updJunk = none ∧
    set_pdf_junk (some exFile) "b" true = (false, some exFile) := by
  refine ⟨merge_update_dropped_only_without_status_file.1 "a" "hi", by decide, ?_, ?_⟩
  · exact merge_update_dropped_only_without_status_file.2.2.2.1 exFile "b" updJunk (by decide)
  · exact merge_update_dropped_only_without_status_file.2.2.2.2.2.1 exFile "b" true (by decide)

/-- C2, counterexample: with a status file holding only a record for
document "a", saving annotations for document "b" writes the payload file
and then raises — it neither returns success nor leaves the payload file
unwritten. -/
theorem save_for_unallocated_doc_writes_payload :
    save_annotations (some exFile) none "b" [{ blob := "x" }] [] =
      (false, some exFile,
        some { annotations := [{ blob := "x" }], relations := [] }) := by
  rfl

/-- C2 (amended): save_annotations returns success as a no-op, writing
nothing, exactly when the annotator's status file does not exist; when the
file exists but has no record for the docId, the payload file is written
wholesale and the subsequent status update raises KeyError, leaving the
status file unchanged. -/
theorem save_noop_only_without_status_file :
    (∀ (pl : Option PdfAnnot) (sha : String) (anns : List Annot)
        (rels : List RelationGroup),
      save_annotations none pl sha anns rels = (true, none, pl)) ∧
    (∀ (file : StatusFile) (pl : Option PdfAnnot) (sha : String)
        (anns : List Annot) (rels : List RelationGroup),
      lookupStatus file sha = none →
        save_annotations (some file) pl sha anns rels =
          (false, some file, some { annotations := anns, relations := rels })) := by
  constructor
  · intro pl sha anns rels
    rfl
  · intro file pl sha anns rels h
    simp [save_annotations, update_status_json, h]

/-- C2, witness: the amended theorem evaluated at concrete inputs. -/
theorem save_noop_only_without_status_file_spot :
    save_annotations none none "b" [] [] = (true, none, none) ∧
    lookupStatus exFile "b" = none ∧
    save_annotations (some exFile) none "b" [] [] =
      (false, some exFile, some { annotations := [], relations := [] }) := by
  refine ⟨save_noop_only_without_status_file.1 none "b" [] [], by decide, ?_⟩
  exact save_noop_only_without_status_file.2 exFile none "b" [] [] (by decide)

/-- C3: when the annotator's status file has a record for the docId, a save
stores exactly the given payload and the record's annotations and relations
counts become the lengths of the saved lists. -/
theorem save_updates_counts_and_payload (file : StatusFile) (pl : Option PdfAnnot)
    (sha : String) (r : PaperStatus) (anns : List Annot)
    (rels : List RelationGroup) (h : lookupStatus file sha = some r) :
    ∃ file2,
      save_annotations (some file) pl sha anns rels =
        (true, some file2, some { annotations := anns, relations := rels }) ∧
      ∃ r2, lookupStatus file2 sha = some r2 ∧
        r2.annotations = anns.length ∧ r2.relations = rels.length := by
  refine ⟨setStatus file sha (applyUpdate r
    { annotations := some anns.length, relations := some rels.length }), ?_, ?_⟩
  · simp [save_annotations, update_status_json, h]
  · exact ⟨_, lookupStatus_setStatus_self file sha r _ h, rfl, rfl⟩

/-- C3, witness: the theorem evaluated at a concrete allocated record. -/
theorem save_updates_counts_and_payload_spot :
    lookupStatus exFile "a" = some exRecord ∧
    ∃ file2,
      save_annotations (some exFile) none "a" [{ blob := "x" }, { blob := "y" }] [] =
        (true, some file2,
          some { annotations := [{ blob := "x" }, { blob := "y" }], relations := [] }) ∧
      ∃ r2, lookupStatus file2 "a" = some r2 ∧
        r2.annotations = 2 ∧ r2.relations = 0 := by
  exact ⟨by decide,
    save_updates_counts_and_payload exFile none "a" exRecord
      [{ blob := "x" }, { blob := "y" }] [] (by decide)⟩

/-- C4: update_status_json holds no lock, so two concurrent calls on one
annotator's file can interleave as read-read-write-write; starting from a
file whose record for "a" has all defaults, the finished update of call 1
is lost (the final record has junk true but finished still false), whereas
the serialized schedule keeps both updates. -/
theorem merge_race_loses_update :
    (runMerge exFile "a" updFinished updJunk
        [MergeEv.read1, MergeEv.read2, MergeEv.write1, MergeEv.write2]).file =
      [("a", { exRecord with junk := true })] ∧
    (runMerge exFile "a" updFinished updJunk
        [MergeEv.read1, MergeEv.write1, MergeEv.read2, MergeEv.write2]).file =
      [("a", { exRecord with finished := true, junk := true })] := by
  constructor <;> decide

/-- C5: ingesting the same bytes twice in content-hash mode yields the same
DocumentId both times, the second ingest is a no-op leaving the store (and
in particular the stored content) unchanged, and exactly one copy is
stored. -/
theorem ingest_idempotent_dedup (hash : List Nat → String) (store : Store)
    (content : List Nat) (hdk : countKey store (hash content) ≤ 1) :
    (addPdf hash (addPdf hash store content).2 content).1 =
      (addPdf hash store content).1 ∧
    (addPdf hash (addPdf hash store content).2 content).2 =
      (addPdf hash store content).2 ∧
    countKey (addPdf hash store content).2 (hash content) = 1 := by
  cases hc : lookupStore store (hash content) with
  | some v =>
    have h1 : addPdf hash store content = (hash content, store) := by
      simp [addPdf, hc]
    refine ⟨by simp [h1, addPdf, hc], by simp [h1, addPdf, hc], ?_⟩
    rw [h1]
    exact Nat.le_antisymm hdk (lookupStore_some_countKey store _ v hc)
  | none =>
    have h1 : addPdf hash store content =
        (hash content, (hash content, content) :: store) := by
      simp [addPdf, hc]
    have h2 : lookupStore ((hash content, content) :: store) (hash content) =
        some content := by
      simp [lookupStore]
    refine ⟨by simp [h1, addPdf, hc, h2], by simp [h1, addPdf, hc, h2], ?_⟩
    rw [h1]
    simp [countKey, lookupStore_none_countKey store _ hc]

/-- C5, witness: the theorem evaluated at a one-document store built by a
concrete digest function. -/
theorem ingest_idempotent_dedup_spot :
    countKey ([] : Store) "h" ≤ 1 ∧
    (addPdf (fun _ => "h") (addPdf (fun _ => "h") [] [1]).2 [1]).2 =
      (addPdf (fun _ => "h") [] [1]).2 ∧
    countKey (addPdf (fun _ => "h") [] [1]).2 "h" = 1 := by
  have h := ingest_idempotent_dedup (fun _ => "h") [] [1] (by decide)
  exact ⟨by decide, h.2.1, h.2.2⟩

/-- C6: a successful assign run followed by a second run with the same
arguments returns the same status file unchanged, and any record already
present before the first run is still present, unmodified, afterwards —
existing records are never overwritten. -/
theorem assign_reassign_noop (project : List String) (annotator : String)
    (nm : List (String × String)) (fs : Option StatusFile) (shas : List String)
    (st1 : StatusFile) (h : assign project annotator nm fs shas = .ok st1) :
    assign project annotator nm (some st1) shas = .ok st1 ∧
    (∀ (sha : String) (r : PaperStatus), lookupStatus (fs.getD []) sha = some r →
      lookupStatus st1 sha = some r) := by
  simp only [assign] at h ⊢
  by_cases hd : (List.filter (fun s => !(project.contains s)) shas).isEmpty
  · rw [if_pos hd] at h ⊢
    by_cases he : validEmail annotator = true
    · rw [if_pos he] at h ⊢
      have hst : assignLoop nm (fs.getD []) (sortStrings shas) = st1 := Except.ok.inj h
      constructor
      · have hfix : assignLoop nm st1 (sortStrings shas) = st1 := by
          refine assignLoop_fix nm _ st1 (fun sha hs => ?_)
          rw [← hst]
          exact assignLoop_mem_isSome nm _ (fs.getD []) sha hs
        simp [hfix]
      · intro sha r hr
        rw [← hst]
        exact assignLoop_preserves nm _ _ sha r hr
    · rw [if_neg he] at h
      exact Except.noConfusion h
  · rw [if_neg hd] at h
    exact Except.noConfusion h

/-- C6, witness: assigning one document twice to the same annotator. -/
theorem assign_reassign_noop_spot :
    assign ["a"] "x@y.z" [] none ["a"] = .ok [("a", freshRecord "a" "a")] ∧
    assign ["a"] "x@y.z" [] (some [("a", freshRecord "a" "a")]) ["a"] =
      .ok [("a", freshRecord "a" "a")] := by
  have h1 : assign ["a"] "x@y.z" [] none ["a"] = .ok [("a", freshRecord "a" "a")] := by
    rfl
  exact ⟨h1, (assign_reassign_noop ["a"] "x@y.z" [] none ["a"] _ h1).1⟩

/-- C7: when some requested sha has no document in the project, assign
raises one UsageError whose payload is the list of all unknown shas, and it
does so before any write: the annotator's status file is unchanged. -/
theorem assign_unknown_fails_before_write (project : List String)
    (annotator : String) (nm : List (String × String)) (fs : Option StatusFile)
    (shas : List String) (s : String) (hs : s ∈ shas)
    (hunk : project.contains s = false) :
    assign project annotator nm fs shas =
      .error (.usageError (shas.filter (fun x => !(project.contains x)))) ∧
    (∀ x ∈ shas, project.contains x = false →
      x ∈ shas.filter (fun x => !(project.contains x))) ∧
    assignFs project annotator nm fs shas = fs := by
  have hmem : s ∈ shas.filter (fun x => !(project.contains x)) :=
    List.mem_filter.mpr ⟨hs, by rw [hunk]; rfl⟩
  have hne : (shas.filter (fun x => !(project.contains x))).isEmpty = false := by
    rcases hfe : shas.filter (fun x => !(project.contains x)) with _ | ⟨a, l⟩
    · rw [hfe] at hmem
      simp at hmem
    · rfl
  have hcond : ¬((shas.filter (fun x => !(project.contains x))).isEmpty = true) := by
    rw [hne]
    exact Bool.false_ne_true
  have herr : assign project annotator nm fs shas =
      .error (.usageError (shas.filter (fun x => !(project.contains x)))) := by
    simp only [assign]
    rw [if_neg hcond]
  refine ⟨herr, ?_, ?_⟩
  · intro x hx hcx
    exact List.mem_filter.mpr ⟨hx, by rw [hcx]; rfl⟩
  · simp [assignFs, herr]

/-- C7, witness: one unknown sha against a one-document project. -/
theorem assign_unknown_fails_before_write_spot :
    assign ["a"] "x@y.z" [] (some exFile) ["b"] = .error (.usageError ["b"]) ∧
    assignFs ["a"] "x@y.z" [] (some exFile) ["b"] = some exFile := by
  have h := assign_unknown_fails_before_write ["a"] "x@y.z" [] (some exFile)
    ["b"] "b" (by decide) (by decide)
  exact ⟨h.1, h.2.2⟩

/-- C8: with no status file, the allocation lists exactly one record per
document sha in the store, each with all default fields, and the flag
false; with a (non-empty) status file, it returns that file's records with
the flag true. -/
theorem allocation_fallback_and_explicit (pdfs : List (String × String))
    (file : StatusFile) (hne : file ≠ []) :
    (get_allocation_info none pdfs).hasAllocatedPapers = false ∧
    (get_allocation_info none pdfs).papers.map (fun p => p.sha) = all_pdf_shas pdfs ∧
    (∀ p ∈ (get_allocation_info none pdfs).papers,
      p.annotations = 0 ∧ p.relations = 0 ∧ p.finished = false ∧ p.junk = false ∧
      p.comments = "" ∧ p.completedAt = none) ∧
    (get_allocation_info (some file) pdfs).papers = file.map (fun kv => kv.2) ∧
    (get_allocation_info (some file) pdfs).hasAllocatedPapers = true := by
  refine ⟨rfl, ?_, ?_, rfl, rfl⟩
  · simp [get_allocation_info, all_pdf_shas, PaperStatus.empty, List.map_map,
      Function.comp]
  · intro p hp
    simp only [get_allocation_info, List.mem_map] at hp
    obtain ⟨sha, _, rfl⟩ := hp
    simp [PaperStatus.empty]

/-- C8, witness: a one-document store and the one-record status file. -/
theorem allocation_fallback_and_explicit_spot :
    exFile ≠ [] ∧
    (get_allocation_info none [("a", "a.pdf")]).papers.map (fun p => p.sha) = ["a"] ∧
    (∀ p ∈ (get_allocation_info none [("a", "a.pdf")]).papers, p.annotations = 0 ∧
      p.relations = 0 ∧ p.finished = false ∧ p.junk = false ∧
      p.comments = "" ∧ p.completedAt = none) ∧
    (get_allocation_info (some exFile) [("a", "a.pdf")]).papers = [exRecord] ∧
    (get_allocation_info (some exFile) [("a", "a.pdf")]).hasAllocatedPapers = true := by
  have h := allocation_fallback_and_explicit [("a", "a.pdf")] exFile (by decide)
  exact ⟨by decide, h.2.1, h.2.2.1, h.2.2.2.1, h.2.2.2.2⟩

/-- C9: get_pdf_title reads the metadata entry under the literal key "sha",
not under the requested document id, so for a fixed metadata file its
result is the same for any two requested ids. -/
theorem title_ignores_requested_sha (info : PdfMetadata) (sha1 sha2 : String) :
    get_pdf_title info sha1 = get_pdf_title info sha2 := rfl

/-- C10: user_is_allowed returns true iff the users file exists and holds a
line that, once stripped of surrounding whitespace, equals the email
exactly, or starts with an at sign and is a suffix of the email; with no
users file it returns false for every email instead of raising. -/
theorem user_allowed_iff (uf : Option (List String)) (email : String) :
    user_is_allowed uf email = true ↔
      ∃ lines, uf = some lines ∧ ∃ line ∈ lines,
        (email = line.trim ∨
          (line.trim.startsWith "@" = true ∧ email.endsWith line.trim = true)) := by
  cases uf with
  | none => simp [user_is_allowed]
  | some lines =>
    simp only [user_is_allowed, List.any_eq_true, Option.some.injEq]
    constructor
    · rintro ⟨line, hmem, hline⟩
      refine ⟨lines, rfl, line, hmem, ?_⟩
      simp only [Bool.or_eq_true, beq_iff_eq, Bool.and_eq_true] at hline
      tauto
    · rintro ⟨lines2, heq, line, hmem, hline⟩
      rcases heq with rfl
      refine ⟨line, hmem, ?_⟩
      simp only [Bool.or_eq_true, beq_iff_eq, Bool.and_eq_true]
      tauto

end Pawls
